import Mathlib

/-!
# Settings encryption-at-rest subsystem: a shallow embedding

A Lean model of `functions/api/settings.ts`: the key-derivation helper
`getDerivedKey`, the field cipher `encrypt`/`decrypt` (12-byte nonce prepended
to the AEAD output, base64-encoded), and the `onRequestPut` / `onRequestGet`
handlers that apply the cipher across a tenant's provider-configuration list
stored in a key-value store.

Machine-level platform primitives (WebCrypto AES-GCM and PBKDF2, the UTF-8
text codec of `TextEncoder`/`TextDecoder`, and `JSON.stringify`/`JSON.parse`
of provider lists) are modelled as parameters of a `Platform` structure whose
proof fields state only the standard contracts of those primitives.  The
base64 codec (`btoa`/`atob`) is implemented concretely.  Randomness (the
nonce drawn by `crypto.getRandomValues`) is passed in explicitly.
-/

namespace FlowSettings

/-! ## Base64 (`btoa` / `atob`) -/

/-- The standard base64 alphabet, as indexed by a 6-bit value. -/
def b64Chars : List Char :=
  ['A', 'B', 'C', 'D', 'E', 'F', 'G', 'H', 'I', 'J', 'K', 'L', 'M',
   'N', 'O', 'P', 'Q', 'R', 'S', 'T', 'U', 'V', 'W', 'X', 'Y', 'Z',
   'a', 'b', 'c', 'd', 'e', 'f', 'g', 'h', 'i', 'j', 'k', 'l', 'm',
   'n', 'o', 'p', 'q', 'r', 's', 't', 'u', 'v', 'w', 'x', 'y', 'z',
   '0', '1', '2', '3', '4', '5', '6', '7', '8', '9', '+', '/']

/-- Character for a sextet value. -/
def c64 (n : Nat) : Char := b64Chars.getD n 'A'

/-- Sextet value of a base64 character. -/
def d64 (c : Char) : Option Nat := b64Chars.findIdx? (fun x => x == c)

/-- Base64-encode a byte list, three bytes to four characters, with padding. -/
def b64Enc : List Nat → List Char
  | [] => []
  | [a] => [c64 (a / 4), c64 ((a % 4) * 16), '=', '=']
  | [a, b] => [c64 (a / 4), c64 ((a % 4) * 16 + b / 16), c64 ((b % 16) * 4), '=']
  | a :: b :: d :: rest =>
      c64 (a / 4) :: c64 ((a % 4) * 16 + b / 16) :: c64 ((b % 16) * 4 + d / 64) ::
        c64 (d % 64) :: b64Enc rest

/-- Base64-decode a character list, four characters to three bytes. -/
def b64Dec : List Char → Option (List Nat)
  | [] => some []
  | c1 :: c2 :: c3 :: c4 :: rest =>
      if c3 = '=' then
        if c4 = '=' ∧ rest = [] then
          (d64 c1).bind fun s1 => (d64 c2).bind fun s2 =>
            some [s1 * 4 + s2 / 16]
        else none
      else if c4 = '=' then
        if rest = [] then
          (d64 c1).bind fun s1 => (d64 c2).bind fun s2 => (d64 c3).bind fun s3 =>
            some [s1 * 4 + s2 / 16, (s2 % 16) * 16 + s3 / 4]
        else none
      else
        (d64 c1).bind fun s1 => (d64 c2).bind fun s2 => (d64 c3).bind fun s3 =>
          (d64 c4).bind fun s4 => (b64Dec rest).bind fun tail =>
            some ([s1 * 4 + s2 / 16, (s2 % 16) * 16 + s3 / 4, (s3 % 4) * 64 + s4] ++ tail)
  | _ => none

/-- `btoa(String.fromCharCode(...bytes))`: base64-encode a byte list to a string. -/
def btoa (l : List Nat) : String := String.mk (b64Enc l)

/-- `atob(s).split('').map(c => c.charCodeAt(0))`: base64-decode a string to bytes. -/
def atobBytes (s : String) : Option (List Nat) := b64Dec s.data

theorem d64_c64 : ∀ n, n < 64 → d64 (c64 n) = some n := by decide

theorem c64_ne_pad : ∀ n, n < 64 → c64 n ≠ '=' := by decide

/-- Decoding a full four-character chunk of in-range sextets. -/
theorem b64Dec_chunk (s1 s2 s3 s4 : Nat) (h1 : s1 < 64) (h2 : s2 < 64)
    (h3 : s3 < 64) (h4 : s4 < 64) (rest : List Char) :
    b64Dec (c64 s1 :: c64 s2 :: c64 s3 :: c64 s4 :: rest) =
      (b64Dec rest).bind fun tail =>
        some ([s1 * 4 + s2 / 16, (s2 % 16) * 16 + s3 / 4, (s3 % 4) * 64 + s4] ++ tail) := by
  rw [b64Dec, if_neg (c64_ne_pad _ h3), if_neg (c64_ne_pad _ h4),
    d64_c64 _ h1, d64_c64 _ h2, d64_c64 _ h3, d64_c64 _ h4]
  rfl

/-- Decoding a final chunk carrying one byte (double padding). -/
theorem b64Dec_pad2 (s1 s2 : Nat) (h1 : s1 < 64) (h2 : s2 < 64) :
    b64Dec [c64 s1, c64 s2, '=', '='] = some [s1 * 4 + s2 / 16] := by
  rw [b64Dec, if_pos rfl, if_pos ⟨rfl, rfl⟩, d64_c64 _ h1, d64_c64 _ h2]
  rfl

/-- Decoding a final chunk carrying two bytes (single padding). -/
theorem b64Dec_pad1 (s1 s2 s3 : Nat) (h1 : s1 < 64) (h2 : s2 < 64) (h3 : s3 < 64) :
    b64Dec [c64 s1, c64 s2, c64 s3, '='] =
      some [s1 * 4 + s2 / 16, (s2 % 16) * 16 + s3 / 4] := by
  rw [b64Dec, if_neg (c64_ne_pad _ h3), if_pos rfl, if_pos rfl,
    d64_c64 _ h1, d64_c64 _ h2, d64_c64 _ h3]
  rfl

/-- Decoding inverts encoding on lists of genuine bytes. -/
theorem b64Dec_b64Enc (l : List Nat) (h : ∀ b ∈ l, b < 256) :
    b64Dec (b64Enc l) = some l := by
  induction l using b64Enc.induct with
  | case1 => rfl
  | case2 a =>
      have ha : a < 256 := h a (by simp)
      rw [b64Enc, b64Dec_pad2 _ _ (by omega) (by omega)]
      congr 2
      omega
  | case3 a b =>
      have ha : a < 256 := h a (by simp)
      have hb : b < 256 := h b (by simp)
      rw [b64Enc, b64Dec_pad1 _ _ _ (by omega) (by omega) (by omega)]
      congr 1
      refine congrArg₂ _ (by omega) (congrArg₂ _ (by omega) rfl)
  | case4 a b d rest ih =>
      have ha : a < 256 := h a (by simp)
      have hb : b < 256 := h b (by simp)
      have hd : d < 256 := h d (by simp)
      have hrest : ∀ x ∈ rest, x < 256 := by
        intro x hx; exact h x (by simp [hx])
      rw [b64Enc, b64Dec_chunk _ _ _ _ (by omega) (by omega) (by omega) (by omega),
        ih hrest]
      simp only [Option.some_bind, List.cons_append, List.nil_append,
        Option.some.injEq, List.cons.injEq]
      exact ⟨by omega, by omega, by omega, trivial⟩

/-! ## Data model (`interface ProviderConfig`, `interface Env`) -/

/-- `provider: 'resend' | 'brevo'`. -/
inductive ProviderKind where
  | resend
  | brevo
deriving DecidableEq, Repr

/-- `credentials: { apiKey: string }`. -/
structure Credentials where
  apiKey : String
deriving DecidableEq, Repr

/-- One provider configuration, as stored in the tenant's list. -/
structure ProviderConfig where
  id : Nat
  displayName : String
  provider : ProviderKind
  credentials : Credentials
deriving DecidableEq, Repr

/-- Environment bindings; `MASTER_ENCRYPTION_KEY` is `none` when the secret
binding is absent from the environment. -/
structure Env where
  MASTER_ENCRYPTION_KEY : Option String

/-- Error classes surfaced by the subsystem (the source throws `Error` values;
the constructors here name the spec's taxonomy for the same conditions). -/
inductive SettingsError where
  | configurationError
  | cryptoError
  | decryptionError
  | parseError
deriving DecidableEq, Repr

/-- Cryptographic operations performed while handling one request, recorded as
a trace so that the absence of derivation or decryption work is expressible. -/
inductive CryptoEv where
  | importKey
  | deriveKey
  | encryptOp
  | decryptOp
deriving DecidableEq, Repr

/-- The PBKDF2 inputs passed to `crypto.subtle.deriveKey`.  PBKDF2 is a
deterministic function of exactly these fields, so the record stands for the
derived key bits. -/
structure DerivationParams where
  secret : String
  salt : List Nat
  iterations : Nat
  hash : String
deriving DecidableEq, Repr

/-- The `CryptoKey` object returned by `crypto.subtle.deriveKey`: the target
algorithm descriptor, the extractability flag, the allowed usages, and the
derivation inputs that determine the key bits. -/
structure CryptoKey where
  algName : String
  algLength : Nat
  extractable : Bool
  usages : List String
  derivation : DerivationParams
deriving DecidableEq, Repr

/-! ## Platform primitives

WebCrypto's AES-GCM, the UTF-8 text codec, and JSON (de)serialization of
provider lists are machine primitives outside this repository.  They enter the
model as the fields of a `Platform`, whose proof fields state only their
standard contracts: UTF-8 decoding inverts encoding and produces bytes, and
AES-GCM decryption with the same key and nonce inverts encryption. -/

structure Platform where
  aeadEncrypt : CryptoKey → List Nat → List Nat → Except SettingsError (List Nat)
  aeadDecrypt : CryptoKey → List Nat → List Nat → Except SettingsError (List Nat)
  encodeText : String → List Nat
  decodeText : List Nat → String
  parseProviders : String → Except SettingsError (List ProviderConfig)
  stringifyProviders : List ProviderConfig → String
  encodeText_lt : ∀ s, ∀ b ∈ encodeText s, b < 256
  decodeText_encodeText : ∀ s, decodeText (encodeText s) = s
  aeadEncrypt_lt : ∀ k iv m c, (∀ b ∈ m, b < 256) → aeadEncrypt k iv m = .ok c →
    ∀ b ∈ c, b < 256
  aeadDecrypt_encrypt : ∀ k iv m c, aeadEncrypt k iv m = .ok c →
    aeadDecrypt k iv c = .ok m

/-! ## Key derivation (`getDerivedKey`) -/

/-- `getDerivedKey(env)`: guard the master secret (absent or empty is falsy;
fewer than 32 characters is under-length), then import the secret and derive
a 256-bit AES-GCM key via PBKDF2 with a 16-byte zero salt, 100,000 iterations
and SHA-256.  The source passes `true` for the `extractable` argument of
`deriveKey` and `['encrypt', 'decrypt']` for the usages.  The returned trace
records which derivation steps ran. -/
def getDerivedKey (env : Env) : Except SettingsError CryptoKey × List CryptoEv :=
  match env.MASTER_ENCRYPTION_KEY with
  | none => (.error .configurationError, [])
  | some s =>
    if s = "" then (.error .configurationError, [])
    else if s.length < 32 then (.error .configurationError, [])
    else
      (.ok { algName := "AES-GCM"
             algLength := 256
             extractable := true
             usages := ["encrypt", "decrypt"]
             derivation :=
               { secret := s
                 salt := List.replicate 16 0
                 iterations := 100000
                 hash := "SHA-256" } },
       [.importKey, .deriveKey])

/-! ## Field cipher (`encrypt` / `decrypt`) -/

/-- `encrypt(text, key)`: AES-GCM-encrypt the UTF-8 bytes of `text` under the
nonce `iv` (drawn by `crypto.getRandomValues(new Uint8Array(12))` and passed
in explicitly here), prepend the nonce, and base64-encode. -/
def encrypt (plat : Platform) (iv : List Nat) (text : String) (key : CryptoKey) :
    Except SettingsError String :=
  match plat.aeadEncrypt key iv (plat.encodeText text) with
  | .error e => .error e
  | .ok encrypted => .ok (btoa (iv ++ encrypted))

/-- `decrypt(encryptedText, key)`: base64-decode, split off the first 12 bytes
as the nonce, AEAD-decrypt the remainder, and UTF-8-decode the result. -/
def decrypt (plat : Platform) (encryptedText : String) (key : CryptoKey) :
    Except SettingsError String :=
  match atobBytes encryptedText with
  | none => .error .decryptionError
  | some combined =>
    match plat.aeadDecrypt key (combined.take 12) (combined.drop 12) with
    | .error e => .error e
    | .ok decrypted => .ok (plat.decodeText decrypted)

/-! ## Key-value store (`env.FLOW_KV`) -/

/-- The KV namespace, as an association list from keys to string values. -/
abbrev KV := List (String × String)

/-- `FLOW_KV.get(k)`. -/
def kvGet (kv : KV) (k : String) : Option String :=
  (kv.find? (fun e => e.1 == k)).map (fun e => e.2)

/-- `FLOW_KV.put(k, v)`. -/
def kvPut (kv : KV) (k v : String) : KV :=
  (k, v) :: kv.filter (fun e => !(e.1 == k))

/-- `FLOW_KV.delete(k)`. -/
def kvDelete (kv : KV) (k : String) : KV :=
  kv.filter (fun e => !(e.1 == k))

/-! ## HTTP layer -/

/-- An HTTP response: status code and JSON body text. -/
structure Response where
  status : Nat
  body : String
deriving DecidableEq, Repr

/-- The result of `await request.json()` on a PUT body, as the handler
consumes it: a JSON parse failure (which throws), a JSON value that is not an
array (rejected by `Array.isArray`), or an array of provider configurations. -/
inductive RequestBody where
  | malformed
  | notArray
  | arr (providers : List ProviderConfig)

/-- Everything a handler invocation produces: the response, the state of the
key-value store afterwards, and the trace of cryptographic operations run. -/
structure HandlerResult where
  response : Response
  kv : KV
  trace : List CryptoEv
deriving DecidableEq, Repr

def putBadRequestBody : String :=
  "\x7b\"success\":false,\"message\":\"Request body must be an array of provider configurations.\"\x7d"

def putErrorBody : String :=
  "\x7b\"success\":false,\"message\":\"An internal server error occurred.\"\x7d"

def putSuccessBody : String :=
  "\x7b\"success\":true,\"message\":\"Settings saved successfully!\"\x7d"

def getErrorBody : String :=
  "\x7b\"success\":false,\"message\":\"Internal error.\"\x7d"

/-- The tenant id, hardcoded in both handlers (`// Hardcoded for now`). -/
def tenantId : String := "tenant_superadmin_test_01"

/-- The storage key `tenant::{tenantId}` both handlers use. -/
def tenantKey : String := "tenant::" ++ tenantId

/-! ## Credential-list encryption boundary -/

/-- The per-record lambda of `onRequestPut`: encrypt `credentials.apiKey` when
it is truthy (non-empty), otherwise pass the record through unchanged. -/
def encryptProvider (plat : Platform) (cryptoKey : CryptoKey) (iv : List Nat)
    (p : ProviderConfig) : Except SettingsError ProviderConfig :=
  if p.credentials.apiKey ≠ "" then
    match encrypt plat iv p.credentials.apiKey cryptoKey with
    | .error e => .error e
    | .ok encryptedKey =>
        .ok { p with credentials := { p.credentials with apiKey := encryptedKey } }
  else .ok p

/-- `Promise.all(providers.map(...))` on the write path: encrypt each record,
the record at position `i` using the fresh nonce `ivs i`; the first rejection
rejects the whole batch. -/
def encryptProviders (plat : Platform) (cryptoKey : CryptoKey) (ivs : Nat → List Nat) :
    Nat → List ProviderConfig → Except SettingsError (List ProviderConfig)
  | _, [] => .ok []
  | i, p :: ps =>
    match encryptProvider plat cryptoKey (ivs i) p with
    | .error e => .error e
    | .ok q =>
      match encryptProviders plat cryptoKey ivs (i + 1) ps with
      | .error e => .error e
      | .ok qs => .ok (q :: qs)

/-- The per-record lambda of `onRequestGet`: decrypt `credentials.apiKey` when
it is truthy (non-empty), otherwise pass the record through unchanged. -/
def decryptProvider (plat : Platform) (cryptoKey : CryptoKey) (p : ProviderConfig) :
    Except SettingsError ProviderConfig × List CryptoEv :=
  if p.credentials.apiKey ≠ "" then
    match decrypt plat p.credentials.apiKey cryptoKey with
    | .error e => (.error e, [.decryptOp])
    | .ok decryptedKey =>
        (.ok { p with credentials := { p.credentials with apiKey := decryptedKey } },
         [.decryptOp])
  else (.ok p, [])

/-- `Promise.all(providers.map(...))` on the read path. -/
def decryptProviders (plat : Platform) (cryptoKey : CryptoKey) :
    List ProviderConfig → Except SettingsError (List ProviderConfig) × List CryptoEv
  | [] => (.ok [], [])
  | p :: ps =>
    match decryptProvider plat cryptoKey p with
    | (.error e, tr) => (.error e, tr)
    | (.ok q, tr) =>
      match decryptProviders plat cryptoKey ps with
      | (.error e, tr2) => (.error e, tr ++ tr2)
      | (.ok qs, tr2) => (.ok (q :: qs), tr ++ tr2)

/-! ## Handlers -/

/-- `onRequestPut`: validate that the body is an array, derive the key,
encrypt every record's credential, then delete the tenant entry when the
resulting list is empty and store the serialized list otherwise.  Any thrown
error is caught and answered with status 500, leaving the store untouched.
The handler reads no caller identity: the tenant id is hardcoded. -/
def onRequestPut (plat : Platform) (ivs : Nat → List Nat) (env : Env) (kv : KV)
    (body : RequestBody) : HandlerResult :=
  match body with
  | .malformed => ⟨⟨500, putErrorBody⟩, kv, []⟩
  | .notArray => ⟨⟨400, putBadRequestBody⟩, kv, []⟩
  | .arr providers =>
    match getDerivedKey env with
    | (.error _, tr) => ⟨⟨500, putErrorBody⟩, kv, tr⟩
    | (.ok cryptoKey, tr) =>
      match encryptProviders plat cryptoKey ivs 0 providers with
      | .error _ => ⟨⟨500, putErrorBody⟩, kv, tr⟩
      | .ok encryptedProviders =>
        if encryptedProviders.length = 0 then
          ⟨⟨200, putSuccessBody⟩, kvDelete kv tenantKey, tr⟩
        else
          ⟨⟨200, putSuccessBody⟩,
           kvPut kv tenantKey (plat.stringifyProviders encryptedProviders), tr⟩

/-- `onRequestGet`: look up the hardcoded tenant key; a missing (or falsy)
value answers 200 with an empty JSON array at once; otherwise derive the key,
parse the stored JSON, decrypt every record's credential and return the list.
Any thrown error is caught and answered with status 500.  The handler
destructures only `{ env }` from the context: it reads no caller identity. -/
def onRequestGet (plat : Platform) (env : Env) (kv : KV) : HandlerResult :=
  match kvGet kv tenantKey with
  | none => ⟨⟨200, "[]"⟩, kv, []⟩
  | some raw =>
    if raw = "" then ⟨⟨200, "[]"⟩, kv, []⟩
    else
      match getDerivedKey env with
      | (.error _, tr) => ⟨⟨500, getErrorBody⟩, kv, tr⟩
      | (.ok cryptoKey, tr) =>
        match plat.parseProviders raw with
        | .error _ => ⟨⟨500, getErrorBody⟩, kv, tr⟩
        | .ok providers =>
          match decryptProviders plat cryptoKey providers with
          | (.error _, tr2) => ⟨⟨500, getErrorBody⟩, kv, tr ++ tr2⟩
          | (.ok decryptedProviders, tr2) =>
              ⟨⟨200, plat.stringifyProviders decryptedProviders⟩, kv, tr ++ tr2⟩

/-! ## Concrete platform instances

Executable instances of `Platform`, showing the primitive contracts are
satisfiable and letting the theorems be evaluated on concrete inputs.  The
text codec writes each character as three base-256 digits; the sample AEAD
is the identity transformation (its correctness contract does not constrain
confidentiality, only invertibility). -/

/-- Three base-256 digits of a character code (codes are below `2 ^ 24`). -/
def charBytes (c : Char) : List Nat :=
  [c.toNat / 65536, c.toNat / 256 % 256, c.toNat % 256]

/-- Byte encoding of a character list. -/
def encChars : List Char → List Nat
  | [] => []
  | c :: cs => charBytes c ++ encChars cs

/-- Inverse of `encChars`: rebuild one character from each three bytes. -/
def decBytes3 : List Nat → List Char
  | a :: b :: d :: rest => Char.ofNat (a * 65536 + b * 256 + d) :: decBytes3 rest
  | _ => []

theorem charToNat_lt (c : Char) : c.toNat < 1114112 := by
  rcases c.valid with h | ⟨h1, h2⟩
  · change c.val.toNat < 1114112
    omega
  · change c.val.toNat < 1114112
    omega

theorem decBytes3_encChars (cs : List Char) : decBytes3 (encChars cs) = cs := by
  induction cs with
  | nil => rfl
  | cons c cs ih =>
      have hc : c.toNat < 1114112 := charToNat_lt c
      show decBytes3 (charBytes c ++ encChars cs) = c :: cs
      rw [charBytes]
      show Char.ofNat (c.toNat / 65536 * 65536 + c.toNat / 256 % 256 * 256 + c.toNat % 256)
            :: decBytes3 (encChars cs) = c :: cs
      rw [ih]
      have harith : c.toNat / 65536 * 65536 + c.toNat / 256 % 256 * 256 + c.toNat % 256
          = c.toNat := by omega
      rw [harith, Char.ofNat_toNat]

theorem encChars_lt (cs : List Char) : ∀ b ∈ encChars cs, b < 256 := by
  induction cs with
  | nil => intro b hb; cases hb
  | cons c cs ih =>
      intro b hb
      have hc : c.toNat < 1114112 := charToNat_lt c
      rw [encChars] at hb
      rcases List.mem_append.mp hb with h | h
      · simp only [charBytes, List.mem_cons, List.not_mem_nil, or_false] at h
        rcases h with h | h | h
        all_goals omega
      · exact ih b h

/-- Build a platform around the sample text codec and identity AEAD, with an
arbitrary JSON codec for provider lists. -/
def mkPlatform (parse : String → Except SettingsError (List ProviderConfig))
    (stringify : List ProviderConfig → String) : Platform where
  aeadEncrypt := fun _ _ m => .ok m
  aeadDecrypt := fun _ _ c => .ok c
  encodeText := fun s => encChars s.data
  decodeText := fun l => String.mk (decBytes3 l)
  parseProviders := parse
  stringifyProviders := stringify
  encodeText_lt := fun s => encChars_lt s.data
  decodeText_encodeText := fun s => by
    show String.mk (decBytes3 (encChars s.data)) = s
    rw [decBytes3_encChars]
  aeadEncrypt_lt := fun _ _ m c hm h => by
    cases h; exact hm
  aeadDecrypt_encrypt := fun _ _ m c h => by
    cases h; rfl

/-- The default sample platform. -/
def idPlatform : Platform := mkPlatform (fun _ => .ok []) (fun _ => "[]")

/-- A platform whose AEAD encryption always rejects, exercising the
encryption-failure path. -/
def failPlatform : Platform where
  aeadEncrypt := fun _ _ _ => .error .cryptoError
  aeadDecrypt := fun _ _ c => .ok c
  encodeText := fun s => encChars s.data
  decodeText := fun l => String.mk (decBytes3 l)
  parseProviders := fun _ => .ok []
  stringifyProviders := fun _ => "[]"
  encodeText_lt := fun s => encChars_lt s.data
  decodeText_encodeText := fun s => by
    show String.mk (decBytes3 (encChars s.data)) = s
    rw [decBytes3_encChars]
  aeadEncrypt_lt := fun _ _ _ _ _ h => by cases h
  aeadDecrypt_encrypt := fun _ _ _ _ h => by cases h

/-! ## Sample inputs for concrete evaluation -/

/-- The spec's end-to-end sample operator secret (32 characters). -/
def demoSecret : String := "0123456789abcdef0123456789abcdef"

/-- The key `getDerivedKey` produces from `demoSecret`. -/
def demoKey : CryptoKey where
  algName := "AES-GCM"
  algLength := 256
  extractable := true
  usages := ["encrypt", "decrypt"]
  derivation :=
    { secret := demoSecret
      salt := List.replicate 16 0
      iterations := 100000
      hash := "SHA-256" }

/-- A sample 12-byte nonce. -/
def demoIv : List Nat := [0, 1, 2, 3, 4, 5, 6, 7, 8, 9, 10, 11]

/-- A second, distinct sample 12-byte nonce. -/
def demoIv2 : List Nat := [99, 1, 2, 3, 4, 5, 6, 7, 8, 9, 10, 11]

/-- A constant nonce source. -/
def demoIvs : Nat → List Nat := fun _ => demoIv

/-- The spec's sample plaintext API key. -/
def demoApiKey : String := "sk_live_ABC123"

/-- A sample record with a non-empty credential. -/
def demoProvider : ProviderConfig where
  id := 1
  displayName := "Main Resend"
  provider := .resend
  credentials := { apiKey := demoApiKey }

/-- A sample record with an empty credential. -/
def demoProviderEmpty : ProviderConfig where
  id := 2
  displayName := "Backup Brevo"
  provider := .brevo
  credentials := { apiKey := "" }

/-- `demoProvider` after its credential is encrypted with `idPlatform`,
`demoKey` and `demoIv`. -/
def demoEncryptedProvider : ProviderConfig :=
  { demoProvider with
    credentials := { apiKey := btoa (demoIv ++ encChars demoApiKey.data) } }

/-- A platform whose JSON parser returns the sample stored list and whose
serializer prints each record's credential, making plaintext exposure in a
response body directly visible. -/
def getDemoPlatform : Platform :=
  mkPlatform (fun _ => .ok [demoEncryptedProvider])
    (fun ps => String.join (ps.map (fun p => p.credentials.apiKey)))

/-! ## Claims -/

/-- C1: for every non-empty plaintext `s` and key `k`,
`decrypt(encrypt(s, k), k)` returns exactly `s`: `encrypt` prepends the
12-byte nonce to the AEAD output and base64-encodes, and `decrypt` base64-
decodes, splits off the first 12 bytes as the nonce, and AEAD-decrypts the
remainder. -/
theorem decrypt_encrypt_roundtrip (plat : Platform) (key : CryptoKey)
    (iv : List Nat) (s blob : String) (hs : s ≠ "") (hlen : iv.length = 12)
    (hiv : ∀ b ∈ iv, b < 256) (henc : encrypt plat iv s key = .ok blob) :
    decrypt plat blob key = .ok s := by
  unfold encrypt at henc
  cases hE : plat.aeadEncrypt key iv (plat.encodeText s) with
  | error e => rw [hE] at henc; cases henc
  | ok c =>
    rw [hE] at henc
    cases henc
    have hbytes : ∀ b ∈ iv ++ c, b < 256 := by
      intro b hb
      rcases List.mem_append.mp hb with h | h
      · exact hiv b h
      · exact plat.aeadEncrypt_lt key iv _ c (plat.encodeText_lt s) hE b h
    have hdec : atobBytes (btoa (iv ++ c)) = some (iv ++ c) :=
      b64Dec_b64Enc _ hbytes
    have ht : (iv ++ c).take 12 = iv := by
      rw [← hlen]; exact List.take_left iv c
    have hd : (iv ++ c).drop 12 = c := by
      rw [← hlen]; exact List.drop_left iv c
    unfold decrypt
    rw [hdec]
    simp only [ht, hd, plat.aeadDecrypt_encrypt key iv _ c hE,
      plat.decodeText_encodeText]

/-- Witness for C1 at the spec's end-to-end sample values. -/
theorem decrypt_encrypt_roundtrip_witness :
    decrypt idPlatform (btoa (demoIv ++ idPlatform.encodeText demoApiKey)) demoKey
      = .ok demoApiKey :=
  decrypt_encrypt_roundtrip idPlatform demoKey demoIv demoApiKey _
    (by decide) (by decide) (by decide) rfl

/-- C3: `encrypt` output determines the drawn nonce — the first 12 bytes of
the base64-decoded blob are the nonce — so two calls on the same plaintext
and key whose fresh random nonces differ produce different blobs. -/
theorem encrypt_nonce_determines (plat : Platform) (key : CryptoKey)
    (iv1 iv2 : List Nat) (s b1 b2 : String)
    (h1len : iv1.length = 12) (h2len : iv2.length = 12)
    (h1 : ∀ b ∈ iv1, b < 256) (h2 : ∀ b ∈ iv2, b < 256) (hne : iv1 ≠ iv2)
    (e1 : encrypt plat iv1 s key = .ok b1) (e2 : encrypt plat iv2 s key = .ok b2) :
    b1 ≠ b2 ∧ (atobBytes b1).map (fun l => l.take 12) = some iv1 := by
  unfold encrypt at e1 e2
  cases hE1 : plat.aeadEncrypt key iv1 (plat.encodeText s) with
  | error e => rw [hE1] at e1; cases e1
  | ok c1 =>
    rw [hE1] at e1
    cases e1
    cases hE2 : plat.aeadEncrypt key iv2 (plat.encodeText s) with
    | error e => rw [hE2] at e2; cases e2
    | ok c2 =>
      rw [hE2] at e2
      cases e2
      have hb1 : ∀ b ∈ iv1 ++ c1, b < 256 := by
        intro b hb
        rcases List.mem_append.mp hb with h | h
        · exact h1 b h
        · exact plat.aeadEncrypt_lt key iv1 _ c1 (plat.encodeText_lt s) hE1 b h
      have hb2 : ∀ b ∈ iv2 ++ c2, b < 256 := by
        intro b hb
        rcases List.mem_append.mp hb with h | h
        · exact h2 b h
        · exact plat.aeadEncrypt_lt key iv2 _ c2 (plat.encodeText_lt s) hE2 b h
      have hd1 : atobBytes (btoa (iv1 ++ c1)) = some (iv1 ++ c1) :=
        b64Dec_b64Enc _ hb1
      have hd2 : atobBytes (btoa (iv2 ++ c2)) = some (iv2 ++ c2) :=
        b64Dec_b64Enc _ hb2
      have ht1 : (iv1 ++ c1).take 12 = iv1 := by
        rw [← h1len]; exact List.take_left iv1 c1
      have ht2 : (iv2 ++ c2).take 12 = iv2 := by
        rw [← h2len]; exact List.take_left iv2 c2
      refine ⟨?_, ?_⟩
      · intro heq
        have hsame : atobBytes (btoa (iv1 ++ c1)) = atobBytes (btoa (iv2 ++ c2)) := by
          rw [heq]
        rw [hd1, hd2] at hsame
        have hlists : iv1 ++ c1 = iv2 ++ c2 := Option.some.inj hsame
        have : iv1 = iv2 := by rw [← ht1, ← ht2, hlists]
        exact hne this
      · rw [hd1]
        simp only [Option.map]
        rw [ht1]

/-- Witness for C3 with two distinct sample nonces. -/
theorem encrypt_nonce_determines_witness :
    btoa (demoIv ++ idPlatform.encodeText demoApiKey)
        ≠ btoa (demoIv2 ++ idPlatform.encodeText demoApiKey) ∧
      (atobBytes (btoa (demoIv ++ idPlatform.encodeText demoApiKey))).map
        (fun l => l.take 12) = some demoIv :=
  encrypt_nonce_determines idPlatform demoKey demoIv demoIv2 demoApiKey _ _
    (by decide) (by decide) (by decide) (by decide) (by decide) rfl rfl

/-- C4 counterexample: the source calls `crypto.subtle.deriveKey` with
`true` for the `extractable` argument (line 45 of `settings.ts`), so the
derived key IS exportable, contradicting the claim that it is created
non-extractable. -/
theorem getDerivedKey_extractable_cex :
    ∃ k, (getDerivedKey ⟨some demoSecret⟩).1 = .ok k ∧ k.extractable = true :=
  ⟨demoKey, rfl, rfl⟩

/-- C4 (amended): every key object `getDerivedKey` produces has usages
exactly `['encrypt', 'decrypt']` and algorithm AES-GCM with a 256-bit
length, but it is created extractable (exportable), since `deriveKey` is
called with `extractable = true`. -/
theorem getDerivedKey_key_restrictions (env : Env) (k : CryptoKey)
    (h : (getDerivedKey env).1 = .ok k) :
    k.usages = ["encrypt", "decrypt"] ∧ k.algName = "AES-GCM" ∧
      k.algLength = 256 ∧ k.extractable = true := by
  rcases env with ⟨sec⟩
  cases sec with
  | none => cases h
  | some s =>
    simp only [getDerivedKey] at h
    split at h
    · cases h
    · split at h
      · cases h
      · cases h
        exact ⟨rfl, rfl, rfl, rfl⟩

/-- Witness for the amended C4 at the sample secret. -/
theorem getDerivedKey_key_restrictions_witness :
    demoKey.usages = ["encrypt", "decrypt"] ∧ demoKey.algName = "AES-GCM" ∧
      demoKey.algLength = 256 ∧ demoKey.extractable = true :=
  getDerivedKey_key_restrictions ⟨some demoSecret⟩ demoKey rfl

/-- C5: on any secret of at least 32 characters, `getDerivedKey` derives its
256-bit AES-GCM key via PBKDF2 with SHA-256, the fixed 16-byte all-zero salt,
and exactly 100,000 iterations; the result is an explicit function of the
secret alone, so the same operator secret always yields the same key bits. -/
theorem getDerivedKey_pbkdf2 (s : String) (h : 32 ≤ s.length) :
    getDerivedKey ⟨some s⟩ =
      (.ok { algName := "AES-GCM"
             algLength := 256
             extractable := true
             usages := ["encrypt", "decrypt"]
             derivation :=
               { secret := s
                 salt := List.replicate 16 0
                 iterations := 100000
                 hash := "SHA-256" } },
       [.importKey, .deriveKey]) := by
  have hne : s ≠ "" := by
    intro he
    rw [he] at h
    exact absurd h (by decide)
  simp only [getDerivedKey]
  rw [if_neg hne, if_neg (by omega)]

/-- Witness for C5 at the spec's sample secret. -/
theorem getDerivedKey_pbkdf2_witness :
    getDerivedKey ⟨some demoSecret⟩ =
      (.ok { algName := "AES-GCM"
             algLength := 256
             extractable := true
             usages := ["encrypt", "decrypt"]
             derivation :=
               { secret := demoSecret
                 salt := List.replicate 16 0
                 iterations := 100000
                 hash := "SHA-256" } },
       [.importKey, .deriveKey]) :=
  getDerivedKey_pbkdf2 demoSecret (by decide)

/-- C6: when the operator secret is missing or shorter than 32 characters,
`getDerivedKey` signals a `ConfigurationError` with no derivation work (no
key-import and no PBKDF2 step appears in the trace), and both the PUT and the
GET request that trigger derivation abort with a 500 server error, leaving
the store unchanged — no unkeyed or weaker fallback. -/
theorem getDerivedKey_fail_closed (plat : Platform) (ivs : Nat → List Nat)
    (env : Env) (kv : KV) (ps : List ProviderConfig) (raw : String)
    (h : env.MASTER_ENCRYPTION_KEY = none ∨
      ∃ s, env.MASTER_ENCRYPTION_KEY = some s ∧ s.length < 32)
    (hraw : kvGet kv tenantKey = some raw) (hrne : raw ≠ "") :
    getDerivedKey env = (.error .configurationError, []) ∧
    onRequestPut plat ivs env kv (.arr ps) = ⟨⟨500, putErrorBody⟩, kv, []⟩ ∧
    onRequestGet plat env kv = ⟨⟨500, getErrorBody⟩, kv, []⟩ := by
  have hk : getDerivedKey env = (.error .configurationError, []) := by
    rcases h with h | ⟨s, hs, hlen⟩
    · simp only [getDerivedKey, h]
    · simp only [getDerivedKey, hs]
      by_cases he : s = ""
      · rw [if_pos he]
      · rw [if_neg he, if_pos hlen]
  refine ⟨hk, ?_, ?_⟩
  · unfold onRequestPut
    rw [hk]
  · unfold onRequestGet
    rw [hraw]
    simp only [if_neg hrne, hk]

/-- Witness for C6 with an absent secret, a one-record PUT body and a
non-empty stored value. -/
theorem getDerivedKey_fail_closed_witness :
    getDerivedKey ⟨none⟩ = (.error .configurationError, []) ∧
    onRequestPut idPlatform demoIvs ⟨none⟩ [(tenantKey, "stored")]
        (.arr [demoProvider]) =
      ⟨⟨500, putErrorBody⟩, [(tenantKey, "stored")], []⟩ ∧
    onRequestGet idPlatform ⟨none⟩ [(tenantKey, "stored")] =
      ⟨⟨500, getErrorBody⟩, [(tenantKey, "stored")], []⟩ :=
  getDerivedKey_fail_closed idPlatform demoIvs ⟨none⟩ [(tenantKey, "stored")]
    [demoProvider] "stored" (Or.inl rfl) rfl (by decide)

/-- If the batch encryption succeeds, every record's individual encryption
succeeded (with the nonce drawn at its position). -/
theorem encryptProviders_ok_nth (plat : Platform) (ck : CryptoKey)
    (ivs : Nat → List Nat) (l : List ProviderConfig) :
    ∀ (n : Nat) (r : List ProviderConfig),
      encryptProviders plat ck ivs n l = .ok r →
      ∀ i (h : i < l.length),
        ∃ q, encryptProvider plat ck (ivs (n + i)) (l.get ⟨i, h⟩) = .ok q := by
  induction l with
  | nil =>
      intro n r _ i h
      exact absurd h (Nat.not_lt_zero i)
  | cons p ps ih =>
      intro n r hr i h
      rw [encryptProviders] at hr
      cases hE : encryptProvider plat ck (ivs n) p with
      | error e => rw [hE] at hr; cases hr
      | ok q =>
        rw [hE] at hr
        cases hR : encryptProviders plat ck ivs (n + 1) ps with
        | error e => rw [hR] at hr; cases hr
        | ok qs =>
          cases i with
          | zero => exact ⟨q, by simpa using hE⟩
          | succ j =>
            obtain ⟨q2, hq2⟩ := ih (n + 1) qs hR j (by simpa using h)
            refine ⟨q2, ?_⟩
            rw [show n + (j + 1) = n + 1 + j by omega]
            exact hq2

/-- Batch encryption preserves the list length. -/
theorem encryptProviders_length (plat : Platform) (ck : CryptoKey)
    (ivs : Nat → List Nat) (l : List ProviderConfig) :
    ∀ (n : Nat) (r : List ProviderConfig),
      encryptProviders plat ck ivs n l = .ok r → r.length = l.length := by
  induction l with
  | nil =>
      intro n r hr
      cases hr
      rfl
  | cons p ps ih =>
      intro n r hr
      rw [encryptProviders] at hr
      cases hE : encryptProvider plat ck (ivs n) p with
      | error e => rw [hE] at hr; cases hr
      | ok q =>
        rw [hE] at hr
        cases hR : encryptProviders plat ck ivs (n + 1) ps with
        | error e => rw [hR] at hr; cases hr
        | ok qs =>
          rw [hR] at hr
          cases hr
          simp [ih (n + 1) qs hR]

/-- C7: whenever any single record's encryption fails during a PUT, the whole
batch rejects, the handler answers 500, and the key-value store is exactly
the one it started with — the put/delete is only reached after every record
encrypted, so there is no plaintext fallback and no partial write. -/
theorem onRequestPut_abort_on_encrypt_failure (plat : Platform)
    (ivs : Nat → List Nat) (env : Env) (kv : KV)
    (providers : List ProviderConfig) (ck : CryptoKey) (tr : List CryptoEv)
    (i : Nat) (hk : getDerivedKey env = (.ok ck, tr)) (hi : i < providers.length)
    (hfail : ∃ e, encryptProvider plat ck (ivs i) (providers.get ⟨i, hi⟩) = .error e) :
    (∃ e2, encryptProviders plat ck ivs 0 providers = .error e2) ∧
    onRequestPut plat ivs env kv (.arr providers) = ⟨⟨500, putErrorBody⟩, kv, tr⟩ := by
  obtain ⟨e, he⟩ := hfail
  have hbatch : ∃ e2, encryptProviders plat ck ivs 0 providers = .error e2 := by
    cases hR : encryptProviders plat ck ivs 0 providers with
    | error e2 => exact ⟨e2, rfl⟩
    | ok r =>
      obtain ⟨q, hq⟩ := encryptProviders_ok_nth plat ck ivs providers 0 r hR i hi
      rw [Nat.zero_add] at hq
      rw [he] at hq
      cases hq
  obtain ⟨e2, hR⟩ := hbatch
  refine ⟨⟨e2, hR⟩, ?_⟩
  unfold onRequestPut
  rw [hk]
  simp only [hR]

/-- Witness for C7: a platform whose AEAD rejects makes the single record's
encryption fail; the handler answers 500 and the store is untouched. -/
theorem onRequestPut_abort_on_encrypt_failure_witness :
    (∃ e2, encryptProviders failPlatform demoKey demoIvs 0 [demoProvider] = .error e2) ∧
    onRequestPut failPlatform demoIvs ⟨some demoSecret⟩ [(tenantKey, "old")]
        (.arr [demoProvider]) =
      ⟨⟨500, putErrorBody⟩, [(tenantKey, "old")], [.importKey, .deriveKey]⟩ :=
  onRequestPut_abort_on_encrypt_failure failPlatform demoIvs ⟨some demoSecret⟩
    [(tenantKey, "old")] [demoProvider] demoKey [.importKey, .deriveKey] 0
    rfl (by decide) ⟨.cryptoError, rfl⟩

/-- C8: the per-record write transform replaces only the credential field —
a record with a non-empty `apiKey` keeps its `id`, `displayName` and
`provider` and gets exactly `encrypt(apiKey, key)` as its new `apiKey`; a
record with an empty `apiKey` passes through to storage unchanged, the empty
string stored as-is. -/
theorem encryptProvider_frame (plat : Platform) (ck : CryptoKey) (iv : List Nat)
    (p : ProviderConfig) :
    (p.credentials.apiKey = "" → encryptProvider plat ck iv p = .ok p) ∧
    (∀ q, encryptProvider plat ck iv p = .ok q → p.credentials.apiKey ≠ "" →
      q.id = p.id ∧ q.displayName = p.displayName ∧ q.provider = p.provider ∧
        encrypt plat iv p.credentials.apiKey ck = .ok q.credentials.apiKey) := by
  constructor
  · intro h
    unfold encryptProvider
    rw [if_neg (fun hne => hne h)]
  · intro q hq hne
    unfold encryptProvider at hq
    rw [if_pos hne] at hq
    cases hE : encrypt plat iv p.credentials.apiKey ck with
    | error e => rw [hE] at hq; cases hq
    | ok blob =>
      rw [hE] at hq
      cases hq
      exact ⟨rfl, rfl, rfl, rfl⟩

/-- Witness for C8: one record with an empty credential passes through
unchanged; one with a non-empty credential keeps all other fields and gets
the encrypted blob. -/
theorem encryptProvider_frame_witness :
    encryptProvider idPlatform demoKey demoIv demoProviderEmpty = .ok demoProviderEmpty ∧
    (demoEncryptedProvider.id = demoProvider.id ∧
      demoEncryptedProvider.displayName = demoProvider.displayName ∧
      demoEncryptedProvider.provider = demoProvider.provider ∧
      encrypt idPlatform demoIv demoProvider.credentials.apiKey demoKey =
        .ok demoEncryptedProvider.credentials.apiKey) :=
  ⟨(encryptProvider_frame idPlatform demoKey demoIv demoProviderEmpty).1 rfl,
   (encryptProvider_frame idPlatform demoKey demoIv demoProvider).2
     demoEncryptedProvider rfl (by decide)⟩

/-- Looking up a key just written returns the written value. -/
theorem kvGet_kvPut (kv : KV) (k v : String) : kvGet (kvPut kv k v) k = some v := by
  unfold kvGet kvPut
  rw [List.find?_cons_of_pos _ (by simp)]
  rfl

/-- Looking up a key just deleted returns nothing. -/
theorem kvGet_kvDelete (kv : KV) (k : String) : kvGet (kvDelete kv k) k = none := by
  unfold kvGet kvDelete
  induction kv with
  | nil => rfl
  | cons e rest ih =>
      rw [List.filter_cons]
      by_cases he : e.1 == k
      · rw [if_neg (by simp [he])]
        exact ih
      · rw [if_pos (by simp [he]), List.find?_cons_of_neg _ (by simp [he])]
        exact ih

/-- C9: a PUT carrying an empty provider list deletes the tenant's storage
entry (no empty-list tombstone remains), while a PUT carrying a non-empty
list stores the full encrypted list under the tenant key. -/
theorem onRequestPut_storage (plat : Platform) (ivs : Nat → List Nat)
    (env : Env) (kv : KV) (providers : List ProviderConfig) (ck : CryptoKey)
    (tr : List CryptoEv) (eps : List ProviderConfig)
    (hk : getDerivedKey env = (.ok ck, tr))
    (he : encryptProviders plat ck ivs 0 providers = .ok eps) :
    (providers = [] →
      onRequestPut plat ivs env kv (.arr providers) =
        ⟨⟨200, putSuccessBody⟩, kvDelete kv tenantKey, tr⟩ ∧
      kvGet (onRequestPut plat ivs env kv (.arr providers)).kv tenantKey = none) ∧
    (providers ≠ [] →
      onRequestPut plat ivs env kv (.arr providers) =
        ⟨⟨200, putSuccessBody⟩, kvPut kv tenantKey (plat.stringifyProviders eps), tr⟩ ∧
      kvGet (onRequestPut plat ivs env kv (.arr providers)).kv tenantKey =
        some (plat.stringifyProviders eps)) := by
  have hlen : eps.length = providers.length :=
    encryptProviders_length plat ck ivs providers 0 eps he
  constructor
  · intro hnil
    subst hnil
    cases he
    have hhandler : onRequestPut plat ivs env kv (.arr []) =
        ⟨⟨200, putSuccessBody⟩, kvDelete kv tenantKey, tr⟩ := by
      unfold onRequestPut
      rw [hk]
      rfl
    exact ⟨hhandler, by rw [hhandler]; exact kvGet_kvDelete kv tenantKey⟩
  · intro hne
    have hlenpos : eps.length ≠ 0 := by
      rw [hlen]
      intro h0
      exact hne (List.eq_nil_of_length_eq_zero h0)
    have hhandler : onRequestPut plat ivs env kv (.arr providers) =
        ⟨⟨200, putSuccessBody⟩, kvPut kv tenantKey (plat.stringifyProviders eps), tr⟩ := by
      unfold onRequestPut
      rw [hk]
      simp only [he, if_neg hlenpos]
    exact ⟨hhandler, by rw [hhandler]; exact kvGet_kvPut kv tenantKey _⟩

/-- Witness for C9: the empty list deletes the entry; a one-record list (with
an empty credential, passed through) stores the serialized list. -/
theorem onRequestPut_storage_witness :
    (onRequestPut idPlatform demoIvs ⟨some demoSecret⟩ [(tenantKey, "old")] (.arr []) =
       ⟨⟨200, putSuccessBody⟩, kvDelete [(tenantKey, "old")] tenantKey,
        [.importKey, .deriveKey]⟩ ∧
     kvGet (onRequestPut idPlatform demoIvs ⟨some demoSecret⟩ [(tenantKey, "old")]
         (.arr [])).kv tenantKey = none) ∧
    (onRequestPut idPlatform demoIvs ⟨some demoSecret⟩ [] (.arr [demoProviderEmpty]) =
       ⟨⟨200, putSuccessBody⟩,
        kvPut [] tenantKey (idPlatform.stringifyProviders [demoProviderEmpty]),
        [.importKey, .deriveKey]⟩ ∧
     kvGet (onRequestPut idPlatform demoIvs ⟨some demoSecret⟩ []
         (.arr [demoProviderEmpty])).kv tenantKey =
       some (idPlatform.stringifyProviders [demoProviderEmpty])) :=
  ⟨(onRequestPut_storage idPlatform demoIvs ⟨some demoSecret⟩ [(tenantKey, "old")]
      [] demoKey [.importKey, .deriveKey] [] rfl rfl).1 rfl,
   (onRequestPut_storage idPlatform demoIvs ⟨some demoSecret⟩ []
      [demoProviderEmpty] demoKey [.importKey, .deriveKey] [demoProviderEmpty]
      rfl rfl).2 (by decide)⟩

/-- C10: when no settings record exists under the tenant key, GET answers
HTTP 200 with the empty JSON array `[]`, leaves the store unchanged, and
performs no key derivation and no decryption (the trace is empty). -/
theorem onRequestGet_no_settings (plat : Platform) (env : Env) (kv : KV)
    (h : kvGet kv tenantKey = none) :
    onRequestGet plat env kv = ⟨⟨200, "[]"⟩, kv, []⟩ := by
  unfold onRequestGet
  rw [h]

/-- Witness for C10 on the empty store. -/
theorem onRequestGet_no_settings_witness :
    onRequestGet idPlatform ⟨some demoSecret⟩ [] = ⟨⟨200, "[]"⟩, [], []⟩ :=
  onRequestGet_no_settings idPlatform ⟨some demoSecret⟩ [] rfl

/-- C2: the GET handler takes no caller identity at all — the source
destructures only `{ env }` from the request context, leaves authentication
as a TODO comment, and hardcodes the tenant id — yet on the stored-settings
path it decrypts and returns the plaintext credentials.  Every hypothesis
here concerns only stored state and platform codecs, none concerns a caller:
any caller, authenticated or not, receives the decrypted list. -/
theorem onRequestGet_plaintext_without_auth (plat : Platform) (env : Env)
    (kv : KV) (raw : String) (ck : CryptoKey) (tr : List CryptoEv)
    (providers dps : List ProviderConfig) (tr2 : List CryptoEv)
    (hraw : kvGet kv tenantKey = some raw) (hrne : raw ≠ "")
    (hk : getDerivedKey env = (.ok ck, tr))
    (hp : plat.parseProviders raw = .ok providers)
    (hd : decryptProviders plat ck providers = (.ok dps, tr2)) :
    onRequestGet plat env kv = ⟨⟨200, plat.stringifyProviders dps⟩, kv, tr ++ tr2⟩ := by
  unfold onRequestGet
  rw [hraw]
  simp only [if_neg hrne, hk, hp, hd]

/-- Witness for C2: with an encrypted credential stored, an (unauthenticated,
identity-free) GET answers 200 carrying the decrypted plaintext `demoApiKey`
in its body. -/
theorem onRequestGet_plaintext_without_auth_witness :
    onRequestGet getDemoPlatform ⟨some demoSecret⟩ [(tenantKey, "stored")] =
      ⟨⟨200, getDemoPlatform.stringifyProviders [demoProvider]⟩,
       [(tenantKey, "stored")], [.importKey, .deriveKey, .decryptOp]⟩ ∧
    getDemoPlatform.stringifyProviders [demoProvider] = demoApiKey :=
  ⟨onRequestGet_plaintext_without_auth getDemoPlatform ⟨some demoSecret⟩
     [(tenantKey, "stored")] "stored" demoKey [.importKey, .deriveKey]
     [demoEncryptedProvider] [demoProvider] [.decryptOp]
     rfl (by decide) rfl rfl rfl,
   by decide⟩

end FlowSettings
